import Mathlib

/-!
Shallow embedding of the preemptive execution core of a small x86_64 kernel
(scheduler, executor, process table, scancode stream), with theorems checking
the specification's claims about it.

Sources embedded here:
  src/src/task/scheduler.rs  (Scheduler, schedule, try_schedule, spawn_thread,
                              exit_current_thread, kill_thread, sleep_ms)
  src/src/task/process.rs    (ProcessTable: register, terminate, set_state, ...)
  src/src/task/executor.rs   (Executor::poll_ready_tasks)
  src/src/task/keyboard.rs   (ScancodeStreamFuture::poll)
  src/src/interrupts.rs      (ScancodeQueue, timer_tick_handler, TICK_COUNT)

Modelling conventions: u64 values are Nat, with wrapping or saturating
arithmetic made explicit via U64MAX where the Rust code can overflow;
raw frame pointers and stack-bottom pointers are Nat addresses (0 = null);
heap deallocations performed by a call are returned as an explicit list of
freed (stack_bottom, stack_size) pairs; the future polled by the executor is
opaque in the source, so poll outcomes are supplied by an oracle function.
-/

namespace KernelModel

/-- One past the largest u64 value; u64 wrapping arithmetic is mod U64MOD. -/
def U64MOD : Nat := 2 ^ 64

/-- Thread scheduling states, from scheduler.rs (ThreadState). -/
inductive ThreadState where
  | Ready
  | Running
  | Sleeping (wake_tick : Nat)
  | Terminated
deriving Repr, DecidableEq

/-- A kernel thread record, from scheduler.rs (struct Thread). Pointers are
modelled as Nat addresses. -/
structure Thread where
  pid : Nat
  name : String
  state : ThreadState
  parent_pid : Option Nat
  stack_bottom : Nat
  stack_size : Nat
  saved_frame : Nat
deriving Repr, DecidableEq

/-- Scheduler state, from scheduler.rs (struct Scheduler). The ready queue
is a list with the front of the VecDeque at the head. -/
structure Scheduler where
  threads : List Thread
  current : Option Thread
  idle_frame : Nat
  deferred_dealloc : Option (Nat × Nat)
deriving Repr, DecidableEq

/-- Per-thread stack size, from scheduler.rs (THREAD_STACK_SIZE = 16 KiB). -/
def THREAD_STACK_SIZE : Nat := 16 * 1024

/-- Size in bytes of an InterruptFrame (20 u64 words), from context.rs; used
only to compute the address of the synthetic frame built by spawn_thread. -/
def FRAME_SIZE : Nat := 20 * 8

/-- dealloc_stack from scheduler.rs: frees a stack unless the pointer is null.
Deallocation is modelled by appending the freed (bottom, size) pair to a log
of the deallocations performed by the surrounding call. -/
def dealloc_stack (freed : List (Nat × Nat)) (stack_bottom : Nat)
    (stack_size : Nat) : List (Nat × Nat) :=
  if stack_bottom = 0 then freed else freed ++ [(stack_bottom, stack_size)]

/-- First phase of Scheduler::schedule: take and free the deferred stack
recorded by the previous call. Returns the deallocation log and the state
with the slot cleared. -/
def drain_deferred (s : Scheduler) : List (Nat × Nat) × Scheduler :=
  match s.deferred_dealloc with
  | some (ptr, size) =>
    (dealloc_stack [] ptr size, { s with deferred_dealloc := none })
  | none => ([], s)

/-- Second phase of Scheduler::schedule: save the context of whoever was
running. A Terminated current thread goes to the deferred-deallocation slot;
a Sleeping one is reinserted preserving its state; anything else is demoted
to Ready and reinserted at the tail. With no current thread the incoming
frame is recorded as the idle frame. -/
def save_current (s : Scheduler) (current_frame : Nat) : Scheduler :=
  match s.current with
  | some t =>
    let t1 := { t with saved_frame := current_frame }
    match t1.state with
    | ThreadState.Terminated =>
      { s with current := none,
               deferred_dealloc := some (t1.stack_bottom, t1.stack_size) }
    | ThreadState.Sleeping _ =>
      { s with current := none, threads := s.threads ++ [t1] }
    | _ =>
      { s with current := none,
               threads := s.threads ++ [{ t1 with state := ThreadState.Ready }] }
  | none => { s with current := none, idle_frame := current_frame }

/-- The sleep-wake step inside the queue walk of Scheduler::schedule: a
Sleeping thread whose wake tick has been reached becomes Ready. -/
def wake_if_due (now : Nat) (t : Thread) : Thread :=
  match t.state with
  | ThreadState.Sleeping wake_tick =>
    if now ≥ wake_tick then { t with state := ThreadState.Ready } else t
  | _ => t

/-- The queue walk of Scheduler::schedule (the for-loop over the VecDeque):
each of the original entries is popped once; Terminated entries are dropped
with their stack freed immediately; due sleepers are woken; the first entry
that is then Ready is selected and the walk stops; all other entries are
pushed back in order. Returns (deallocation log, remaining queue, selected
thread). -/
def schedule_walk (now : Nat) : List Thread → List Thread → List (Nat × Nat) →
    List (Nat × Nat) × List Thread × Option Thread
  | [], kept, freed => (freed, kept, none)
  | t :: rest, kept, freed =>
    if t.state = ThreadState.Terminated then
      schedule_walk now rest kept (dealloc_stack freed t.stack_bottom t.stack_size)
    else
      let t1 := wake_if_due now t
      if t1.state = ThreadState.Ready then
        (freed, rest ++ kept, some t1)
      else
        schedule_walk now rest (kept ++ [t1]) freed

/-- Scheduler::schedule from scheduler.rs. Takes the incoming frame pointer
and the current value of TICK_COUNT (read inside the Rust function); returns
the frame to resume, the new scheduler state, and the deallocation log of
this call. -/
def schedule (s : Scheduler) (current_frame : Nat) (now : Nat) :
    Nat × Scheduler × List (Nat × Nat) :=
  let d := drain_deferred s
  let s1 := save_current d.2 current_frame
  match schedule_walk now s1.threads [] d.1 with
  | (freed, q, some t) =>
    (t.saved_frame,
     { s1 with threads := q,
               current := some { t with state := ThreadState.Running } },
     freed)
  | (freed, q, none) =>
    (s1.idle_frame, { s1 with threads := q, current := none }, freed)

/-- try_schedule from scheduler.rs: called from the timer ISR. lock_free
models whether SCHEDULER.try_lock() succeeds; osched models the Option
inside the mutex (none while uninitialized). Returns none when either the
try-lock fails or the scheduler is uninitialized. -/
def try_schedule (lock_free : Bool) (osched : Option Scheduler)
    (current_frame : Nat) (now : Nat) :
    Option (Nat × Scheduler × List (Nat × Nat)) :=
  if lock_free then
    match osched with
    | some s => some (schedule s current_frame now)
    | none => none
  else
    none

/-- timer_tick_handler from interrupts.rs: increments TICK_COUNT (wrapping
u64), then if the scheduler is enabled asks try_schedule for a frame to
resume; on none (or disabled) the incoming frame is returned unchanged.
Returns (resumed frame, new tick count, new scheduler option). -/
def timer_tick_handler (tick : Nat) (enabled : Bool) (lock_free : Bool)
    (osched : Option Scheduler) (frame : Nat) :
    Nat × Nat × Option Scheduler :=
  let tick1 := (tick + 1) % U64MOD
  if enabled then
    match try_schedule lock_free osched frame tick1 with
    | some (new_frame, s1, _) => (new_frame, tick1, some s1)
    | none => (frame, tick1, osched)
  else
    (frame, tick1, osched)

/-- Process lifecycle states, from process.rs (ProcessState). -/
inductive ProcessState where
  | Ready
  | Running
  | Sleeping
  | Blocked
  | Terminated
deriving Repr, DecidableEq

/-- A process-table record, from process.rs (struct Process). -/
structure Process where
  task_id : Nat
  name : String
  state : ProcessState
  parent_pid : Option Nat
  exit_code : Option Int
  is_thread : Bool
deriving Repr, DecidableEq

/-- The process table (process.rs, struct ProcessTable): a map from pid to
Process, modelled as a function. -/
def ProcessTable : Type := Nat → Option Process

/-- ProcessTable::register from process.rs: inserts a fresh record in state
Ready with no exit code. -/
def register (task_id : Nat) (name : String) (parent_pid : Option Nat)
    (is_thread : Bool) (tbl : ProcessTable) : ProcessTable :=
  fun q =>
    if q = task_id then
      some { task_id := task_id, name := name, state := ProcessState.Ready,
             parent_pid := parent_pid, exit_code := none, is_thread := is_thread }
    else tbl q

/-- Modelled from the spec: register_thread is called by spawn_thread in
scheduler.rs but is not defined on ProcessTable in src/src/task/process.rs;
per the spec it has the same semantics as register plus kind = Thread
(is_thread = true). -/
def register_thread (pid : Nat) (name : String) (parent_pid : Option Nat)
    (tbl : ProcessTable) : ProcessTable :=
  register pid name parent_pid true tbl

/-- ProcessTable::terminate from process.rs: if the pid is present, set its
state to Terminated and record the exit code. -/
def terminate (pid : Nat) (exit_code : Int) (tbl : ProcessTable) : ProcessTable :=
  fun q =>
    if q = pid then
      match tbl pid with
      | some p => some { p with state := ProcessState.Terminated,
                                exit_code := some exit_code }
      | none => none
    else tbl q

/-- ProcessTable::set_state from process.rs: if the pid is present and the
record is not Terminated, update its state. -/
def set_state (pid : Nat) (state : ProcessState) (tbl : ProcessTable) : ProcessTable :=
  fun q =>
    if q = pid then
      match tbl pid with
      | some p =>
        if p.state = ProcessState.Terminated then some p
        else some { p with state := state }
      | none => none
    else tbl q

/-- ProcessTable::is_alive from process.rs. -/
def is_alive (pid : Nat) (tbl : ProcessTable) : Bool :=
  match tbl pid with
  | some p => decide (p.state ≠ ProcessState.Terminated)
  | none => false

/-- spawn_thread from scheduler.rs, minus the register contents of the
synthetic frame (frames are modelled by their address): builds a Thread in
state Ready whose synthetic frame sits at the top of its freshly allocated
16 KiB stack, registers it in the process table via register_thread, and
appends it to the scheduler's ready queue. stack_bottom is the address the
allocator returned (the code panics when it is null). -/
def spawn_thread (pid : Nat) (name : String) (parent_pid : Option Nat)
    (stack_bottom : Nat) (s : Scheduler) (tbl : ProcessTable) :
    Scheduler × ProcessTable :=
  let frame_ptr := stack_bottom + THREAD_STACK_SIZE - FRAME_SIZE
  let thread : Thread :=
    { pid := pid, name := name, state := ThreadState.Ready,
      parent_pid := parent_pid, stack_bottom := stack_bottom,
      stack_size := THREAD_STACK_SIZE, saved_frame := frame_ptr }
  let tbl1 := register_thread pid name parent_pid tbl
  ({ s with threads := s.threads ++ [thread] }, tbl1)

/-- The scheduler-lock critical section of exit_current_thread in
scheduler.rs: mark the current thread Terminated and return its pid. -/
def exit_current_mark (s : Scheduler) : Scheduler × Option Nat :=
  match s.current with
  | some t => ({ s with current := some { t with state := ThreadState.Terminated } },
               some t.pid)
  | none => (s, none)

/-- exit_current_thread from scheduler.rs (the part before the halt loop):
mark the current thread Terminated, then terminate it in the process table
with exit code 0. -/
def exit_current_thread (s : Scheduler) (tbl : ProcessTable) :
    Scheduler × ProcessTable :=
  let m := exit_current_mark s
  match m.2 with
  | some pid => (m.1, terminate pid 0 tbl)
  | none => (m.1, tbl)

/-- The queue scan of kill_thread in scheduler.rs: mark the first thread with
the given pid Terminated. -/
def kill_in_queue (pid : Nat) : List Thread → List Thread × Bool
  | [] => ([], false)
  | t :: rest =>
    if t.pid = pid then ({ t with state := ThreadState.Terminated } :: rest, true)
    else
      let r := kill_in_queue pid rest
      (t :: r.1, r.2)

/-- The scheduler-lock critical section of kill_thread in scheduler.rs: if
the current thread has the pid, mark it Terminated; otherwise mark the first
matching thread in the ready queue. -/
def kill_thread_mark (pid : Nat) (s : Scheduler) : Scheduler × Bool :=
  match s.current with
  | some t =>
    if t.pid = pid then
      ({ s with current := some { t with state := ThreadState.Terminated } }, true)
    else
      let r := kill_in_queue pid s.threads
      ({ s with threads := r.1 }, r.2)
  | none =>
    let r := kill_in_queue pid s.threads
    ({ s with threads := r.1 }, r.2)

/-- kill_thread from scheduler.rs: mark the thread Terminated and, when one
was found, terminate it in the process table with exit code 1. -/
def kill_thread (pid : Nat) (s : Scheduler) (tbl : ProcessTable) :
    Scheduler × ProcessTable × Bool :=
  let m := kill_thread_mark pid s
  if m.2 then (m.1, terminate pid 1 tbl, true) else (m.1, tbl, false)

/-- The tick count sleep_ms computes: (ms + 9) / 10 in u64 arithmetic, so
the addition wraps modulo 2^64. -/
def sleep_ticks (ms : Nat) : Nat :=
  ((ms + 9) % U64MOD) / 10

/-- Result of a sleep_ms call: whether the non-thread-context warning was
printed, the scheduler and table states, and the wake tick of the halt-wait
loop the caller enters (none when it returns without waiting). -/
structure SleepResult where
  warned : Bool
  sched : Scheduler
  table : ProcessTable
  wake : Option Nat

/-- sleep_ms from scheduler.rs: rounds ms up to 10 ms ticks (u64 arithmetic);
returns at once when the tick count is 0; otherwise marks the current thread
Sleeping(now saturating_add ticks) and its table record Sleeping, halts until
the wake tick, then restores the table record to Ready. With no current
thread it prints a warning and returns with nothing changed. The halt-wait
loop is modelled by the wake field of the result. -/
def sleep_ms (ms : Nat) (now : Nat) (s : Scheduler) (tbl : ProcessTable) :
    SleepResult :=
  let ticks := sleep_ticks ms
  if ticks = 0 then
    { warned := false, sched := s, table := tbl, wake := none }
  else
    let wake_tick := min (now + ticks) (U64MOD - 1)
    match s.current with
    | some t =>
      let s1 := { s with current := some { t with state := ThreadState.Sleeping wake_tick } }
      let tbl1 := set_state t.pid ProcessState.Sleeping tbl
      let tbl2 := set_state t.pid ProcessState.Ready tbl1
      { warned := false, sched := s1, table := tbl2, wake := some wake_tick }
    | none =>
      { warned := true, sched := s, table := tbl, wake := none }

/-- Executor state, from executor.rs (struct Executor). The futures inside
the task map are opaque; a task is represented by its id, and poll outcomes
are supplied externally by an oracle (true = the poll returns Ready). -/
structure Executor where
  tasks : List Nat
  ready_queue : List Nat
  waker_cache : List Nat
deriving Repr, DecidableEq

/-- The while-let loop of Executor::poll_ready_tasks in executor.rs: pop the
ready queue; skip ids no longer in the task map; mark the task Running,
ensure a cached waker, poll it; on Ready remove the task and its waker and
terminate it with exit code 0; on Pending mark it Blocked. -/
def poll_loop (oracle : Nat → Bool) : List Nat → List Nat → List Nat →
    ProcessTable → List Nat × List Nat × ProcessTable
  | [], tasks, cache, tbl => (tasks, cache, tbl)
  | id :: rest, tasks, cache, tbl =>
    if id ∈ tasks then
      let tbl1 := set_state id ProcessState.Running tbl
      let cache1 := if id ∈ cache then cache else cache ++ [id]
      if oracle id then
        poll_loop oracle rest (tasks.erase id) (cache1.erase id)
          (terminate id 0 tbl1)
      else
        poll_loop oracle rest tasks cache1 (set_state id ProcessState.Blocked tbl1)
    else
      poll_loop oracle rest tasks cache tbl

/-- Executor::poll_ready_tasks from executor.rs. -/
def poll_ready_tasks (oracle : Nat → Bool) (e : Executor) (tbl : ProcessTable) :
    Executor × ProcessTable :=
  let r := poll_loop oracle e.ready_queue e.tasks e.waker_cache tbl
  ({ tasks := r.1, ready_queue := [], waker_cache := r.2.1 }, r.2.2)

/-- The scancode ring buffer, from interrupts.rs (struct ScancodeQueue):
a 128-byte circular buffer. buf is modelled as a function from index to
byte; read and write stay below 128. -/
structure ScancodeQueue where
  buf : Nat → Nat
  read : Nat
  write : Nat
  count : Nat

/-- ScancodeQueue::push from interrupts.rs: drops the byte when full. -/
def scq_push (q : ScancodeQueue) (scancode : Nat) : ScancodeQueue :=
  if q.count < 128 then
    { q with buf := fun i => if i = q.write then scancode else q.buf i,
             write := (q.write + 1) % 128,
             count := q.count + 1 }
  else q

/-- ScancodeQueue::pop from interrupts.rs: non-blocking; returns the front
byte and advances the read index. -/
def scq_pop (q : ScancodeQueue) : Option Nat × ScancodeQueue :=
  if q.count = 0 then (none, q)
  else
    (some (q.buf q.read),
     { q with read := (q.read + 1) % 128, count := q.count - 1 })

/-- Result of polling a future. -/
inductive PollRes where
  | ready (b : Nat)
  | pending
deriving Repr, DecidableEq

/-- ScancodeStreamFuture::poll from keyboard.rs. slot is the KEYBOARD_WAKER
slot, waker the current task's waker (modelled by an id). The keyboard ISR
may run between the first pop and the second; the bytes it pushes in that
window are interleaved (they land in the ring before the second check, and
registering the waker does not touch the ring, so one interleaving point
covers pushes on either side of the registration). Returns the poll result,
the ring as left behind, and the waker slot. -/
def scancode_poll (q0 : ScancodeQueue) (slot : Option Nat) (waker : Nat)
    (interleaved : List Nat) : PollRes × ScancodeQueue × Option Nat :=
  match scq_pop q0 with
  | (some scancode, q1) => (PollRes.ready scancode, q1, slot)
  | (none, q1) =>
    let slot1 := some waker
    let q2 := interleaved.foldl scq_push q1
    match scq_pop q2 with
    | (some scancode, q3) => (PollRes.ready scancode, q3, slot1)
    | (none, q3) => (PollRes.pending, q3, slot1)

/-! Helper notions used to state and prove the claims. -/

/-- A queue entry is selectable at tick now when the walk of
Scheduler::schedule would select it on reaching it: it is Ready, or it is a
sleeper whose wake tick has been reached. -/
def selectable (now : Nat) (t : Thread) : Bool :=
  match t.state with
  | ThreadState.Ready => true
  | ThreadState.Sleeping wake_tick => decide (now ≥ wake_tick)
  | _ => false

/-- Whether a thread record is Terminated, as a Bool. -/
def is_terminated (t : Thread) : Bool :=
  decide (t.state = ThreadState.Terminated)

/-- The stack regions of a list of threads, skipping null stack bottoms
(matching the null check in dealloc_stack). -/
def stacks_of (l : List Thread) : List (Nat × Nat) :=
  l.filterMap fun t =>
    if t.stack_bottom = 0 then none else some (t.stack_bottom, t.stack_size)

theorem stacks_of_nil : stacks_of [] = [] := rfl

theorem stacks_of_cons (t : Thread) (l : List Thread) :
    stacks_of (t :: l) =
      (if t.stack_bottom = 0 then [] else [(t.stack_bottom, t.stack_size)]) ++
        stacks_of l := by
  simp only [stacks_of, List.filterMap_cons]
  split <;> simp_all

theorem wake_if_due_state_ready_iff (now : Nat) (t : Thread) :
    (wake_if_due now t).state = ThreadState.Ready ↔ selectable now t = true := by
  cases h : t.state <;> simp [wake_if_due, selectable, h] <;> split <;> simp_all

theorem wake_if_due_of_not_selectable (now : Nat) (t : Thread)
    (h : selectable now t = false) : wake_if_due now t = t := by
  cases ht : t.state <;> simp_all [wake_if_due, selectable]

theorem selectable_of_terminated (now : Nat) (t : Thread)
    (h : t.state = ThreadState.Terminated) : selectable now t = false := by
  simp [selectable, h]

theorem wake_if_due_saved_frame (now : Nat) (t : Thread) :
    (wake_if_due now t).saved_frame = t.saved_frame := by
  cases h : t.state <;> simp [wake_if_due, h] <;> split <;> rfl

theorem wake_if_due_pid (now : Nat) (t : Thread) :
    (wake_if_due now t).pid = t.pid := by
  cases h : t.state <;> simp [wake_if_due, h] <;> split <;> rfl

theorem wake_if_due_stack_bottom (now : Nat) (t : Thread) :
    (wake_if_due now t).stack_bottom = t.stack_bottom := by
  cases h : t.state <;> simp [wake_if_due, h] <;> split <;> rfl

/-- Closed form of the queue walk of Scheduler::schedule: the walk drops and
frees exactly the Terminated entries before the first selectable entry,
selects the first selectable entry (woken when it was a due sleeper), leaves
the entries after it untouched, and cycles the skipped non-terminated
entries to the tail; with no selectable entry it drops and frees every
Terminated entry and keeps the rest in order. -/
theorem schedule_walk_eq (now : Nat) (q kept : List Thread)
    (freed : List (Nat × Nat)) :
    schedule_walk now q kept freed =
      match q.dropWhile (fun t => !selectable now t) with
      | [] =>
        (freed ++ stacks_of (q.filter is_terminated),
         kept ++ q.filter (fun u => !is_terminated u),
         none)
      | t :: rest =>
        (freed ++
           stacks_of ((q.takeWhile (fun t => !selectable now t)).filter is_terminated),
         rest ++ kept ++
           (q.takeWhile (fun t => !selectable now t)).filter (fun u => !is_terminated u),
         some (wake_if_due now t)) := by
  induction q generalizing kept freed with
  | nil => simp [schedule_walk, stacks_of]
  | cons t rest ih =>
    by_cases hT : t.state = ThreadState.Terminated
    · have hsel : selectable now t = false := selectable_of_terminated now t hT
      have hterm : is_terminated t = true := by simp [is_terminated, hT]
      simp only [schedule_walk, if_pos hT, List.dropWhile_cons, List.takeWhile_cons,
        hsel, Bool.not_false, if_true, List.filter_cons, hterm, Bool.not_true]
      rw [ih]
      cases hd : rest.dropWhile (fun u => !selectable now u) with
      | nil =>
        simp only [hd, stacks_of_cons, dealloc_stack]
        split <;> simp [List.append_assoc]
      | cons u us =>
        simp only [hd, stacks_of_cons, dealloc_stack]
        split <;> simp [List.append_assoc]
    · simp only [schedule_walk, if_neg hT]
      by_cases hsel : selectable now t = true
      · have hready : (wake_if_due now t).state = ThreadState.Ready :=
          (wake_if_due_state_ready_iff now t).mpr hsel
        simp [hsel, hready, List.dropWhile_cons, List.takeWhile_cons, stacks_of]
      · have hsel' : selectable now t = false := by simp_all
        have hfix : wake_if_due now t = t := wake_if_due_of_not_selectable now t hsel'
        have hnready : ¬ (wake_if_due now t).state = ThreadState.Ready := by
          rw [wake_if_due_state_ready_iff]; simp [hsel']
        have hnready' : ¬ t.state = ThreadState.Ready := by rw [← hfix]; exact hnready
        have hterm : is_terminated t = false := by simp [is_terminated, hT]
        simp only [hfix, if_neg hnready', List.dropWhile_cons, List.takeWhile_cons,
          hsel', Bool.not_false, if_true, List.filter_cons, hterm, Bool.not_true]
        rw [ih]
        cases hd : rest.dropWhile (fun u => !selectable now u) with
        | nil => simp [hd, List.append_assoc]
        | cons u us => simp [hd, List.append_assoc]

/-- Closed form of Scheduler::schedule in terms of the deferred-slot drain,
the current-thread save, and the walk characterization. -/
theorem schedule_eq (s : Scheduler) (current_frame now : Nat) :
    schedule s current_frame now =
      let d := drain_deferred s
      let s1 := save_current d.2 current_frame
      match s1.threads.dropWhile (fun t => !selectable now t) with
      | [] =>
        (s1.idle_frame,
         { s1 with threads := s1.threads.filter (fun u => !is_terminated u),
                   current := none },
         d.1 ++ stacks_of (s1.threads.filter is_terminated))
      | t :: rest =>
        (t.saved_frame,
         { s1 with
             threads := rest ++
               (s1.threads.takeWhile (fun t => !selectable now t)).filter
                 (fun u => !is_terminated u),
             current := some { wake_if_due now t with state := ThreadState.Running } },
         d.1 ++
           stacks_of ((s1.threads.takeWhile (fun t => !selectable now t)).filter
             is_terminated)) := by
  simp only [schedule]
  rw [schedule_walk_eq]
  cases hd : (save_current (drain_deferred s).2 current_frame).threads.dropWhile
      (fun t => !selectable now t) with
  | nil => simp
  | cons t rest => simp [wake_if_due_saved_frame]

/-! Claim C7. -/

/-- C7: for every pid whose process-table record is Terminated, set_state
leaves the whole table unchanged; and for a record that is not Terminated,
set_state updates exactly that record's state. A terminated process is
never revived. -/
theorem claim7_terminated_never_revived (tbl : ProcessTable) (pid : Nat)
    (st : ProcessState) (p : Process) (hp : tbl pid = some p) :
    (p.state = ProcessState.Terminated → set_state pid st tbl = tbl) ∧
    (p.state ≠ ProcessState.Terminated →
      set_state pid st tbl pid = some { p with state := st } ∧
      ∀ q, q ≠ pid → set_state pid st tbl q = tbl q) := by
  refine ⟨fun hterm => ?_, fun hterm => ⟨?_, fun q hq => ?_⟩⟩
  · funext q
    by_cases hq : q = pid
    · subst hq; simp [set_state, hp, hterm]
    · simp [set_state, hq]
  · simp [set_state, hp, hterm]
  · simp [set_state, hq]

/-- Concrete process table holding a single Terminated record at pid 3. -/
def tbl_term : ProcessTable :=
  fun q =>
    if q = 3 then
      some { task_id := 3, name := "t", state := ProcessState.Terminated,
             parent_pid := none, exit_code := some 0, is_thread := true }
    else none

theorem claim7_witness :
    set_state 3 ProcessState.Ready tbl_term = tbl_term :=
  (claim7_terminated_never_revived tbl_term 3 ProcessState.Ready _ rfl).1 rfl

/-! Claim C3. -/

/-- C3: try_schedule returns none exactly when the scheduler lock cannot be
acquired or the scheduler is uninitialized, and in that case the timer
interrupt handler returns the incoming frame unchanged with the scheduler
state unmodified (only the tick count advances), so scheduling is retried
at the next tick. -/
theorem claim3_try_schedule_none (lock_free : Bool) (osched : Option Scheduler)
    (frame now tick : Nat) :
    (try_schedule lock_free osched frame now = none ↔
      lock_free = false ∨ osched = none) ∧
    (lock_free = false ∨ osched = none →
      timer_tick_handler tick true lock_free osched frame =
        (frame, (tick + 1) % U64MOD, osched)) := by
  constructor
  · cases lock_free <;> cases osched <;> simp [try_schedule]
  · intro h
    have hnone : try_schedule lock_free osched frame ((tick + 1) % U64MOD) = none := by
      rcases h with h | h
      · simp [try_schedule, h]
      · cases lock_free <;> simp [try_schedule, h]
    simp [timer_tick_handler, hnone]

theorem claim3_witness :
    timer_tick_handler 5 true false none 7 = (7, (5 + 1) % U64MOD, none) :=
  (claim3_try_schedule_none false none 7 0 5).2 (Or.inl rfl)

/-! Claim C9. -/

/-- C9: register_thread has the same semantics as register with kind =
Thread (is_thread = true), and spawn_thread's call to it records the new
thread with initial state Ready, no exit code, the given parent, and the
thread kind. register_thread itself is modelled from the spec (see its
definition), since process.rs does not define it. -/
theorem claim9_register_thread (pid : Nat) (name : String) (parent : Option Nat)
    (stack : Nat) (s : Scheduler) (tbl : ProcessTable) :
    register_thread pid name parent tbl = register pid name parent true tbl ∧
    (spawn_thread pid name parent stack s tbl).2 pid =
      some { task_id := pid, name := name, state := ProcessState.Ready,
             parent_pid := parent, exit_code := none, is_thread := true } := by
  refine ⟨rfl, ?_⟩
  simp [spawn_thread, register_thread, register]

/-! Claim C10 (corrected: the tick computation is u64 arithmetic, so for ms
close to 2^64 the addition ms + 9 wraps, sleep_ticks is 0 and sleep_ms
returns before reaching the warning). -/

/-- C10 as stated is false at ms = 2^64 - 1: the duration is positive and
there is no current thread, yet no warning is logged, because
(ms + 9) wraps modulo 2^64 and the computed tick count is 0. -/
theorem claim10_counterexample :
    0 < U64MOD - 1 ∧
    (sleep_ms (U64MOD - 1) 0
        { threads := [], current := none, idle_frame := 0,
          deferred_dealloc := none } (fun _ => none)).warned = false := by
  constructor
  · norm_num [U64MOD]
  · have h : sleep_ticks (U64MOD - 1) = 0 := by norm_num [sleep_ticks, U64MOD]
    simp [sleep_ms, h]

/-- C10 (amended): if sleep_ms is called with a positive duration whose tick
computation does not overflow u64 (ms + 9 < 2^64) when the scheduler has no
current thread, it logs a warning and returns immediately: it does not enter
the halt-wait loop and neither the scheduler nor the process table changes. -/
theorem claim10_sleep_no_current (ms now : Nat) (s : Scheduler)
    (tbl : ProcessTable) (hpos : 0 < ms) (hnov : ms + 9 < U64MOD)
    (hcur : s.current = none) :
    sleep_ms ms now s tbl =
      { warned := true, sched := s, table := tbl, wake := none } := by
  have hticks : ¬ sleep_ticks ms = 0 := by
    simp only [sleep_ticks, Nat.mod_eq_of_lt hnov]
    omega
  simp [sleep_ms, hticks, hcur]

theorem claim10_witness :
    sleep_ms 25 0
        { threads := [], current := none, idle_frame := 0,
          deferred_dealloc := none } (fun _ => none) =
      { warned := true,
        sched := { threads := [], current := none, idle_frame := 0,
                   deferred_dealloc := none },
        table := fun _ => none, wake := none } :=
  claim10_sleep_no_current 25 0 _ _ (by decide) (by norm_num [U64MOD]) rfl

/-! Claim C4 (corrected: two discrepancies with the code; see the
counterexample). -/

theorem dropWhile_head_not {α : Type} (p : α → Bool) (l : List α) (x : α)
    (xs : List α) (h : l.dropWhile p = x :: xs) : p x = false := by
  induction l with
  | nil => simp [List.dropWhile] at h
  | cons a l ih =>
    by_cases ha : p a
    · rw [List.dropWhile_cons, if_pos ha] at h
      exact ih h
    · rw [List.dropWhile_cons, if_neg ha] at h
      cases h
      simpa using ha

/-- C4 (amended): when ms + 9 does not overflow u64, sleep_ms computes the
tick count as the round-up of ms to 10 ms granularity, and (when the wake
tick does not saturate) marks the current thread Sleeping(now + ticks).
A queued thread Sleeping(w) is untouched by every scheduling decision with
tick < w; at a decision with tick ≥ w it is promoted (and selected) when it
is the first selectable entry of the ready queue — but, contrary to the
claim as stated, not when a Ready thread sits ahead of it. -/
theorem claim4_sleep_rounding_and_wake (ms now current_frame : Nat)
    (s : Scheduler) (tbl : ProcessTable) (t : Thread) (w : Nat)
    (rest : List Thread) :
    (ms + 9 < U64MOD →
      sleep_ticks ms = (ms + 9) / 10 ∧
      ms ≤ 10 * sleep_ticks ms ∧
      (0 < ms → 10 * (sleep_ticks ms - 1) < ms)) ∧
    (s.current = some t → ¬ sleep_ticks ms = 0 →
      now + sleep_ticks ms < U64MOD →
      (sleep_ms ms now s tbl).sched.current =
        some { t with state := ThreadState.Sleeping (now + sleep_ticks ms) }) ∧
    (now < w → t ∈ (save_current (drain_deferred s).2 current_frame).threads →
      t.state = ThreadState.Sleeping w →
      t ∈ (schedule s current_frame now).2.1.threads) ∧
    ((save_current (drain_deferred s).2 current_frame).threads.dropWhile
        (fun u => !selectable now u) = t :: rest →
      t.state = ThreadState.Sleeping w → w ≤ now →
      (schedule s current_frame now).2.1.current =
        some { t with state := ThreadState.Running }) := by
  refine ⟨fun hnov => ?_, fun hcur hticks hnov => ?_, fun hlt hmem hstate => ?_,
    fun hd hstate hw => ?_⟩
  · have hmod : (ms + 9) % U64MOD = ms + 9 := Nat.mod_eq_of_lt hnov
    refine ⟨by simp [sleep_ticks, hmod], ?_, fun hpos => ?_⟩
    · simp only [sleep_ticks, hmod]
      omega
    · simp only [sleep_ticks, hmod]
      omega
  · have hwake : min (now + sleep_ticks ms) (U64MOD - 1) = now + sleep_ticks ms := by
      apply Nat.min_eq_left
      omega
    simp [sleep_ms, hticks, hcur, hwake]
  · rw [schedule_eq]
    have hsel : selectable now t = false := by
      simp only [selectable, hstate, ge_iff_le, decide_eq_false_iff_not]
      omega
    have hnterm : is_terminated t = false := by
      simp [is_terminated, hstate]
    cases hd : (save_current (drain_deferred s).2 current_frame).threads.dropWhile
        (fun u => !selectable now u) with
    | nil =>
      simp only [hd]
      exact List.mem_filter.mpr ⟨hmem, by simp [hnterm]⟩
    | cons u us =>
      simp only [hd]
      have hsplit := List.takeWhile_append_dropWhile
        (p := fun u => !selectable now u)
        (l := (save_current (drain_deferred s).2 current_frame).threads)
      rw [hd] at hsplit
      rw [← hsplit] at hmem
      rcases List.mem_append.mp hmem with hin | hin
      · exact List.mem_append.mpr (Or.inr
          (List.mem_filter.mpr ⟨hin, by simp [hnterm]⟩))
      · rcases List.mem_cons.mp hin with heq | hin
        · exfalso
          have := dropWhile_head_not (fun u => !selectable now u) _ u us hd
          rw [← heq] at this
          simp [hsel] at this
        · exact List.mem_append.mpr (Or.inl hin)
  · rw [schedule_eq]
    simp only [hd]
    have hwoke : wake_if_due now t = { t with state := ThreadState.Ready } := by
      simp [wake_if_due, hstate, hw]
    rw [hwoke]

/-- Concrete Ready thread used by the C4 counterexample. -/
def cex_ready_thread : Thread :=
  { pid := 1, name := "A", state := ThreadState.Ready, parent_pid := none,
    stack_bottom := 4096, stack_size := 16384, saved_frame := 111 }

/-- Concrete sleeping thread (wake tick 5) used by the C4 counterexample. -/
def cex_sleeper : Thread :=
  { pid := 2, name := "B", state := ThreadState.Sleeping 5, parent_pid := none,
    stack_bottom := 8192, stack_size := 16384, saved_frame := 222 }

/-- Scheduler with a Ready thread ahead of a due sleeper. -/
def cex_sched : Scheduler :=
  { threads := [cex_ready_thread, cex_sleeper], current := none,
    idle_frame := 0, deferred_dealloc := none }

/-- C4 as stated is false on the code in two ways. First, the tick count is
not ceil(ms / 10) for every ms: at ms = 2^64 - 1 the u64 addition ms + 9
wraps, so sleep_ticks is 0 while the round-up of ms to 10 ms granularity is
not 0. Second, at tick 10 a queued thread Sleeping(5) is not promoted to
Ready by the scheduling decision when a Ready thread sits ahead of it in the
queue: the decision leaves it Sleeping(5) even though 10 ≥ 5. -/
theorem claim4_counterexample :
    (sleep_ticks (U64MOD - 1) = 0 ∧ (U64MOD - 1 + 9) / 10 ≠ 0) ∧
    ((schedule cex_sched 0 10).2.1.threads.map Thread.state =
        [ThreadState.Sleeping 5] ∧ (5 : Nat) ≤ 10) := by
  refine ⟨⟨?_, ?_⟩, ?_, by norm_num⟩
  · norm_num [sleep_ticks, U64MOD]
  · norm_num [U64MOD]
  · rfl

/-- Thread standing in for a running current thread in the C4 witness. -/
def wit_cur : Thread :=
  { pid := 7, name := "C", state := ThreadState.Running, parent_pid := none,
    stack_bottom := 4096, stack_size := 16384, saved_frame := 333 }

/-- Scheduler whose current thread is wit_cur. -/
def wit_sched_cur : Scheduler :=
  { threads := [], current := some wit_cur, idle_frame := 0,
    deferred_dealloc := none }

/-- Scheduler whose queue holds a single sleeper with wake tick 5. -/
def wit_sched_slp : Scheduler :=
  { threads := [{ pid := 2, name := "B", state := ThreadState.Sleeping 5,
                  parent_pid := none, stack_bottom := 8192,
                  stack_size := 16384, saved_frame := 222 }],
    current := none, idle_frame := 0, deferred_dealloc := none }

theorem claim4_witness :
    sleep_ticks 25 = (25 + 9) / 10 ∧
    (sleep_ms 25 0 wit_sched_cur (fun _ => none)).sched.current =
      some { wit_cur with state := ThreadState.Sleeping (0 + sleep_ticks 25) } ∧
    ({ pid := 2, name := "B", state := ThreadState.Sleeping 5,
       parent_pid := none, stack_bottom := 8192, stack_size := 16384,
       saved_frame := 222 } : Thread) ∈ (schedule wit_sched_slp 0 3).2.1.threads ∧
    (schedule wit_sched_slp 0 10).2.1.current =
      some { pid := 2, name := "B", state := ThreadState.Running,
             parent_pid := none, stack_bottom := 8192, stack_size := 16384,
             saved_frame := 222 } := by
  refine ⟨?_, ?_, ?_, ?_⟩
  · exact (claim4_sleep_rounding_and_wake 25 0 0 wit_sched_cur (fun _ => none)
      wit_cur 0 []).1 (by norm_num [U64MOD]) |>.1
  · exact (claim4_sleep_rounding_and_wake 25 0 0 wit_sched_cur (fun _ => none)
      wit_cur 0 []).2.1 rfl (by decide) (by norm_num [U64MOD, sleep_ticks])
  · exact (claim4_sleep_rounding_and_wake 25 3 0 wit_sched_slp (fun _ => none)
      _ 5 []).2.2.1 (by decide) (by decide) rfl
  · exact (claim4_sleep_rounding_and_wake 25 10 0 wit_sched_slp (fun _ => none)
      _ 5 []).2.2.2 rfl rfl (by decide)

/-! Claim C1. -/

/-- C1: a scheduling decision walks the ready queue at most once, in queue
order. Writing s1 for the state after the deferred-free drain and the
current-thread save, and splitting s1's queue at the first selectable entry
(the first entry that is Ready, or Sleeping(w) with now ≥ w and hence
promoted to Ready when examined): if such an entry t exists, its saved frame
is returned and it becomes the current, Running thread; the Terminated
entries walked over before it are dropped with their stacks deallocated and
no entry past t is examined or changed; every entry before t is not
selectable — in particular t is the first entry in state Ready, so threads
that stay Ready run in FIFO order of enqueue. If no entry is selectable, the
walk drops exactly the Terminated entries, keeps the rest in order, and the
saved idle frame is returned with no current thread. -/
theorem claim1_schedule_walk_fifo (s : Scheduler) (current_frame now : Nat)
    (t : Thread) (rest : List Thread) :
    ((save_current (drain_deferred s).2 current_frame).threads.dropWhile
        (fun u => !selectable now u) = t :: rest →
      (schedule s current_frame now).1 = t.saved_frame ∧
      (schedule s current_frame now).2.1.current =
        some { wake_if_due now t with state := ThreadState.Running } ∧
      selectable now t = true ∧
      (schedule s current_frame now).2.1.threads =
        rest ++ ((save_current (drain_deferred s).2 current_frame).threads.takeWhile
          (fun u => !selectable now u)).filter (fun u => !is_terminated u) ∧
      (schedule s current_frame now).2.2 =
        (drain_deferred s).1 ++
          stacks_of (((save_current (drain_deferred s).2 current_frame).threads.takeWhile
            (fun u => !selectable now u)).filter is_terminated) ∧
      ∀ u ∈ (save_current (drain_deferred s).2 current_frame).threads.takeWhile
          (fun u => !selectable now u), selectable now u = false) ∧
    ((save_current (drain_deferred s).2 current_frame).threads.dropWhile
        (fun u => !selectable now u) = [] →
      (schedule s current_frame now).1 =
        (save_current (drain_deferred s).2 current_frame).idle_frame ∧
      (schedule s current_frame now).2.1.current = none ∧
      (schedule s current_frame now).2.1.threads =
        (save_current (drain_deferred s).2 current_frame).threads.filter
          (fun u => !is_terminated u) ∧
      (schedule s current_frame now).2.2 =
        (drain_deferred s).1 ++
          stacks_of ((save_current (drain_deferred s).2 current_frame).threads.filter
            is_terminated) ∧
      ∀ u ∈ (save_current (drain_deferred s).2 current_frame).threads,
        selectable now u = false) := by
  constructor
  · intro hd
    have hhead : selectable now t = true := by
      have := dropWhile_head_not (fun u => !selectable now u) _ t rest hd
      simpa using this
    rw [schedule_eq]
    simp only [hd]
    refine ⟨trivial, trivial, hhead, trivial, trivial, fun u hu => ?_⟩
    have := List.mem_takeWhile_imp hu
    simpa using this
  · intro hd
    rw [schedule_eq]
    simp only [hd]
    refine ⟨trivial, trivial, trivial, trivial, fun u hu => ?_⟩
    have hsplit := List.takeWhile_append_dropWhile
      (p := fun u => !selectable now u)
      (l := (save_current (drain_deferred s).2 current_frame).threads)
    rw [hd, List.append_nil] at hsplit
    rw [← hsplit] at hu
    have := List.mem_takeWhile_imp hu
    simpa using this

/-- Not-yet-due sleeper (wake tick 20) for the C1 witness. -/
def cex1_sleeper : Thread :=
  { pid := 11, name := "S", state := ThreadState.Sleeping 20, parent_pid := none,
    stack_bottom := 12288, stack_size := 16384, saved_frame := 444 }

/-- Ready thread for the C1 witness. -/
def cex1_ready : Thread :=
  { pid := 12, name := "A", state := ThreadState.Ready, parent_pid := none,
    stack_bottom := 4096, stack_size := 16384, saved_frame := 111 }

/-- Scheduler whose queue holds the not-yet-due sleeper ahead of the Ready
thread. -/
def cex1_sched : Scheduler :=
  { threads := [cex1_sleeper, cex1_ready], current := none,
    idle_frame := 0, deferred_dealloc := none }

theorem claim1_witness :
    (schedule cex1_sched 0 10).1 = 111 ∧
    (schedule cex1_sched 0 10).2.1.current =
      some { pid := 12, name := "A", state := ThreadState.Running,
             parent_pid := none, stack_bottom := 4096, stack_size := 16384,
             saved_frame := 111 } ∧
    (schedule cex1_sched 0 10).2.1.threads = [cex1_sleeper] := by
  have h := (claim1_schedule_walk_fifo cex1_sched 0 10 cex1_ready []).1 (by decide)
  refine ⟨?_, ?_, ?_⟩
  · exact h.1
  · rw [h.2.1]
    rfl
  · rw [h.2.2.2.1]
    rfl

/-! Claim C2. -/

theorem drain_deferred_threads (s : Scheduler) :
    (drain_deferred s).2.threads = s.threads := by
  unfold drain_deferred
  split <;> rfl

theorem drain_deferred_current (s : Scheduler) :
    (drain_deferred s).2.current = s.current := by
  unfold drain_deferred
  split <;> rfl

/-- The filter of Terminated entries of the post-save queue equals that of
the original queue: a reinserted current thread is never Terminated (a
Terminated current thread goes to the deferred slot instead). -/
theorem save_current_filter_term (s : Scheduler) (cf : Nat) :
    (save_current (drain_deferred s).2 cf).threads.filter is_terminated =
      s.threads.filter is_terminated := by
  unfold save_current
  rw [drain_deferred_current]
  cases hc : s.current with
  | none => simp [drain_deferred_threads]
  | some t =>
    cases ht : t.state <;>
      simp [ht, drain_deferred_threads, List.filter_append, is_terminated]

theorem stacks_of_map_fst (l : List Thread) :
    List.Sublist ((stacks_of l).map Prod.fst) (l.map fun t => t.stack_bottom) := by
  induction l with
  | nil => simp [stacks_of]
  | cons t l ih =>
    rw [stacks_of_cons]
    by_cases h : t.stack_bottom = 0
    · simpa [h] using ih.cons t.stack_bottom
    · simpa [h] using ih.cons₂ t.stack_bottom

theorem mem_stacks_of (l : List Thread) (t : Thread) (ht : t ∈ l)
    (hnz : t.stack_bottom ≠ 0) : (t.stack_bottom, t.stack_size) ∈ stacks_of l := by
  refine List.mem_filterMap.mpr ⟨t, ht, ?_⟩
  simp [hnz]

/-- The deallocation slot's stack bottom, as a (zero- or one-element) list. -/
def slot_ptrs (s : Scheduler) : List Nat :=
  match s.deferred_dealloc with
  | some pr => [pr.1]
  | none => []

/-- All stack-bottom pointers held by a scheduler state: the deferred slot,
then the ready queue, then the current thread. -/
def stack_ptrs (s : Scheduler) : List Nat :=
  slot_ptrs s ++ ((s.threads.map fun t => t.stack_bottom) ++
    (match s.current with
     | some t => [t.stack_bottom]
     | none => []))

theorem drained_map_fst (s : Scheduler) :
    List.Sublist (((drain_deferred s).1).map Prod.fst) (slot_ptrs s) := by
  unfold drain_deferred slot_ptrs
  cases hdef : s.deferred_dealloc with
  | none => simp
  | some pr =>
    simp only [dealloc_stack]
    split <;> simp

/-- The stack bottoms freed by one schedule call form a sublist of the
deferred-slot pointer followed by the bottoms of the Terminated entries of
the original ready queue. -/
theorem schedule_freed_fst_sublist (s : Scheduler) (cf now : Nat) :
    List.Sublist (((schedule s cf now).2.2).map Prod.fst)
      (slot_ptrs s ++ (s.threads.filter is_terminated).map fun t => t.stack_bottom) := by
  rw [schedule_eq]
  cases hd : (save_current (drain_deferred s).2 cf).threads.dropWhile
      (fun u => !selectable now u) with
  | nil =>
    simp only [hd, List.map_append]
    refine List.Sublist.append (drained_map_fst s) ?_
    rw [← save_current_filter_term s cf]
    exact stacks_of_map_fst _
  | cons t rest =>
    simp only [hd, List.map_append]
    refine List.Sublist.append (drained_map_fst s) ?_
    refine List.Sublist.trans (stacks_of_map_fst _) ?_
    rw [← save_current_filter_term s cf]
    exact ((List.takeWhile_sublist _).filter is_terminated).map _

theorem schedule_deferred_slot (s : Scheduler) (cf now : Nat) :
    (schedule s cf now).2.1.deferred_dealloc =
      (save_current (drain_deferred s).2 cf).deferred_dealloc := by
  rw [schedule_eq]
  cases hd : (save_current (drain_deferred s).2 cf).threads.dropWhile
      (fun u => !selectable now u) with
  | nil => simp [hd]
  | cons t rest => simp [hd]

/-- C2: stacks of Terminated threads are deallocated exactly once. If the
current thread is observed Terminated, its stack goes to the single
deferred slot and is not freed by this call (the incoming frame lives on
it); a stack in the deferred slot from the previous call is freed at the
top of this call; Terminated threads walked over in the ready queue have
their stacks freed immediately; and (stack bottoms being pairwise distinct)
no stack pair occurs twice in the deallocations of one call, and no call
frees the stack of the thread the incoming frame belongs to. -/
theorem claim2_stack_freed_once (s : Scheduler) (current_frame now : Nat)
    (hnd : (stack_ptrs s).Nodup) :
    (∀ t, s.current = some t → t.state = ThreadState.Terminated →
      (schedule s current_frame now).2.1.deferred_dealloc =
        some (t.stack_bottom, t.stack_size)) ∧
    (∀ p sz, s.deferred_dealloc = some (p, sz) → p ≠ 0 →
      (p, sz) ∈ (schedule s current_frame now).2.2) ∧
    ((schedule s current_frame now).2.2).Nodup ∧
    (∀ t, s.current = some t → ∀ sz,
      (t.stack_bottom, sz) ∉ (schedule s current_frame now).2.2) ∧
    (∀ u ∈ (save_current (drain_deferred s).2 current_frame).threads.takeWhile
        (fun v => !selectable now v),
      u.state = ThreadState.Terminated → u.stack_bottom ≠ 0 →
      (u.stack_bottom, u.stack_size) ∈ (schedule s current_frame now).2.2) := by
  have hsub := schedule_freed_fst_sublist s current_frame now
  have hsubptr : List.Sublist
      (((schedule s current_frame now).2.2).map Prod.fst)
      (slot_ptrs s ++ s.threads.map fun t => t.stack_bottom) := by
    refine hsub.trans (List.Sublist.append (List.Sublist.refl _) ?_)
    exact (List.filter_sublist _).map _
  refine ⟨fun t hc ht => ?_, fun p sz hdef hp => ?_, ?_, fun t hc sz hmem => ?_,
    fun u hu hterm hnz => ?_⟩
  · rw [schedule_deferred_slot]
    unfold save_current
    rw [drain_deferred_current, hc]
    simp [ht]
  · rw [schedule_eq]
    have hd1 : (drain_deferred s).1 = [(p, sz)] := by
      unfold drain_deferred
      simp [hdef, dealloc_stack, hp]
    cases hd : (save_current (drain_deferred s).2 current_frame).threads.dropWhile
        (fun u => !selectable now u) with
    | nil => simp [hd, hd1]
    | cons t rest => simp [hd, hd1]
  · have hnd2 : (slot_ptrs s ++ s.threads.map fun t => t.stack_bottom).Nodup := by
      have : List.Sublist (slot_ptrs s ++ s.threads.map fun t => t.stack_bottom)
          (stack_ptrs s) := by
        unfold stack_ptrs
        refine List.Sublist.append (List.Sublist.refl _) ?_
        exact List.sublist_append_left _ _
      exact hnd.sublist this
    exact ((hnd2.sublist hsubptr).of_map Prod.fst)
  · have hfst : t.stack_bottom ∈
        ((schedule s current_frame now).2.2).map Prod.fst :=
      List.mem_map.mpr ⟨(t.stack_bottom, sz), hmem, rfl⟩
    have hin : t.stack_bottom ∈ slot_ptrs s ++ s.threads.map fun u => u.stack_bottom :=
      hsubptr.mem hfst
    have hnd' : ((slot_ptrs s ++ s.threads.map fun u => u.stack_bottom) ++
        [t.stack_bottom]).Nodup := by
      have heq : (slot_ptrs s ++ s.threads.map fun u => u.stack_bottom) ++
          [t.stack_bottom] =
          slot_ptrs s ++ ((s.threads.map fun u => u.stack_bottom) ++ [t.stack_bottom]) := by
        simp [List.append_assoc]
      rw [heq]
      unfold stack_ptrs at hnd
      rw [hc] at hnd
      exact hnd
    exact List.disjoint_of_nodup_append hnd' hin (by simp)
  · rw [schedule_eq]
    cases hd : (save_current (drain_deferred s).2 current_frame).threads.dropWhile
        (fun u => !selectable now u) with
    | nil =>
      simp only [hd]
      refine List.mem_append.mpr (Or.inr ?_)
      have hu' : u ∈ (save_current (drain_deferred s).2 current_frame).threads :=
        (List.takeWhile_sublist _).mem hu
      exact mem_stacks_of _ u (List.mem_filter.mpr
        ⟨hu', by simp [is_terminated, hterm]⟩) hnz
    | cons t rest =>
      simp only [hd]
      refine List.mem_append.mpr (Or.inr ?_)
      exact mem_stacks_of _ u (List.mem_filter.mpr
        ⟨hu, by simp [is_terminated, hterm]⟩) hnz

/-- Scheduler for the C2 witness: a pending deferred stack, a Terminated
current thread, and a queue holding one Terminated and one Ready thread. -/
def wit2_sched : Scheduler :=
  { threads :=
      [{ pid := 21, name := "dead", state := ThreadState.Terminated,
         parent_pid := none, stack_bottom := 3000, stack_size := 16384,
         saved_frame := 501 },
       { pid := 22, name := "live", state := ThreadState.Ready,
         parent_pid := none, stack_bottom := 4096, stack_size := 16384,
         saved_frame := 502 }],
    current := some { pid := 23, name := "cur", state := ThreadState.Terminated,
                      parent_pid := none, stack_bottom := 2000,
                      stack_size := 16384, saved_frame := 503 },
    idle_frame := 0,
    deferred_dealloc := some (1000, 7777) }

theorem claim2_witness :
    (schedule wit2_sched 99 0).2.1.deferred_dealloc = some (2000, 16384) ∧
    (1000, 7777) ∈ (schedule wit2_sched 99 0).2.2 ∧
    ((schedule wit2_sched 99 0).2.2).Nodup ∧
    ∀ sz, (2000, sz) ∉ (schedule wit2_sched 99 0).2.2 := by
  have h := claim2_stack_freed_once wit2_sched 99 0 (by decide)
  exact ⟨h.1 _ rfl rfl, h.2.1 1000 7777 rfl (by decide), h.2.2.1,
    fun sz => h.2.2.2.1 _ rfl sz⟩

/-! Claim C5. -/

/-- No thread sitting in the ready queue is in state Running. -/
def queue_no_running (s : Scheduler) : Prop :=
  ∀ t ∈ s.threads, t.state ≠ ThreadState.Running

/-- Number of Running threads across the ready queue and the current slot. -/
def running_count (s : Scheduler) : Nat :=
  (s.threads.filter fun t => decide (t.state = ThreadState.Running)).length +
    (match s.current with
     | some t => if t.state = ThreadState.Running then 1 else 0
     | none => 0)

theorem queue_no_running_count (s : Scheduler) (h : queue_no_running s) :
    running_count s ≤ 1 := by
  unfold running_count
  have hfil : (s.threads.filter fun t => decide (t.state = ThreadState.Running)) = [] := by
    rw [List.filter_eq_nil_iff]
    intro t ht
    simpa using h t ht
  rw [hfil]
  cases s.current with
  | none => simp
  | some t => simp only [List.length_nil, Nat.zero_add]; split <;> omega

theorem save_current_no_running (s : Scheduler) (cf : Nat)
    (h : queue_no_running s) :
    ∀ t ∈ (save_current (drain_deferred s).2 cf).threads,
      t.state ≠ ThreadState.Running := by
  intro t ht
  unfold save_current at ht
  rw [drain_deferred_current, drain_deferred_threads] at ht
  cases hc : s.current with
  | none =>
    rw [hc] at ht
    exact h t ht
  | some c =>
    rw [hc] at ht
    cases hcs : c.state <;> simp only [hcs] at ht
    · rcases List.mem_append.mp ht with hin | hin
      · exact h t hin
      · simp only [List.mem_singleton] at hin
        subst hin
        simp
    · rcases List.mem_append.mp ht with hin | hin
      · exact h t hin
      · simp only [List.mem_singleton] at hin
        subst hin
        simp
    · rcases List.mem_append.mp ht with hin | hin
      · exact h t hin
      · simp only [List.mem_singleton] at hin
        subst hin
        simp
    · exact h t ht

theorem schedule_threads_mem (s : Scheduler) (cf now : Nat) (u : Thread)
    (hu : u ∈ (schedule s cf now).2.1.threads) :
    u ∈ (save_current (drain_deferred s).2 cf).threads := by
  rw [schedule_eq] at hu
  cases hd : (save_current (drain_deferred s).2 cf).threads.dropWhile
      (fun v => !selectable now v) with
  | nil =>
    simp only [hd] at hu
    exact (List.mem_filter.mp hu).1
  | cons t rest =>
    simp only [hd] at hu
    rcases List.mem_append.mp hu with hin | hin
    · have : u ∈ (save_current (drain_deferred s).2 cf).threads.dropWhile
          (fun v => !selectable now v) := by
        rw [hd]
        exact List.mem_cons_of_mem _ hin
      exact (List.dropWhile_sublist _).mem this
    · exact (List.takeWhile_sublist _).mem (List.mem_filter.mp hin).1

theorem kill_in_queue_no_running (pid : Nat) (l : List Thread)
    (h : ∀ t ∈ l, t.state ≠ ThreadState.Running) :
    ∀ u ∈ (kill_in_queue pid l).1, u.state ≠ ThreadState.Running := by
  induction l with
  | nil => simp [kill_in_queue]
  | cons t rest ih =>
    intro u hu
    by_cases hp : t.pid = pid
    · simp only [kill_in_queue, if_pos hp] at hu
      rcases List.mem_cons.mp hu with heq | hin
      · subst heq; simp
      · exact h u (List.mem_cons_of_mem _ hin)
    · simp only [kill_in_queue, if_neg hp] at hu
      rcases List.mem_cons.mp hu with heq | hin
      · subst heq
        exact h u (List.mem_cons_self _ _)
      · exact ih (fun v hv => h v (List.mem_cons_of_mem _ hv)) u hin

/-- C5: at most one thread is Running at every scheduling boundary. With no
Running thread in the ready queue, the Running count over queue and current
slot is at most one; this invariant on the queue is preserved by schedule
(which marks a thread Running only in the current slot, after demoting or
removing the previous current thread), by spawn_thread (which only inserts
Ready threads), and by exit_current_thread, kill_thread and sleep_ms. -/
theorem claim5_single_runner (s : Scheduler) (current_frame now ms pid kpid : Nat)
    (name : String) (parent : Option Nat) (stack : Nat) (tbl : ProcessTable) :
    (queue_no_running s → running_count s ≤ 1) ∧
    (queue_no_running s →
      queue_no_running (schedule s current_frame now).2.1 ∧
      running_count (schedule s current_frame now).2.1 ≤ 1) ∧
    (queue_no_running s →
      queue_no_running (spawn_thread pid name parent stack s tbl).1 ∧
      ∀ u ∈ (spawn_thread pid name parent stack s tbl).1.threads,
        u ∈ s.threads ∨ u.state = ThreadState.Ready) ∧
    (queue_no_running s → queue_no_running (exit_current_mark s).1) ∧
    (queue_no_running s → queue_no_running (kill_thread_mark kpid s).1) ∧
    (queue_no_running s → queue_no_running (sleep_ms ms now s tbl).sched) := by
  refine ⟨queue_no_running_count s, fun h => ?_, fun h => ⟨?_, ?_⟩, fun h => ?_,
    fun h => ?_, fun h => ?_⟩
  · have hq : queue_no_running (schedule s current_frame now).2.1 := by
      intro u hu
      exact save_current_no_running s current_frame h u
        (schedule_threads_mem s current_frame now u hu)
    exact ⟨hq, queue_no_running_count _ hq⟩
  · intro u hu
    simp only [spawn_thread] at hu
    rcases List.mem_append.mp hu with hin | hin
    · exact h u hin
    · simp only [List.mem_singleton] at hin
      subst hin
      simp
  · intro u hu
    simp only [spawn_thread] at hu
    rcases List.mem_append.mp hu with hin | hin
    · exact Or.inl hin
    · simp only [List.mem_singleton] at hin
      subst hin
      exact Or.inr rfl
  · intro u hu
    unfold exit_current_mark at hu
    cases hc : s.current with
    | none => rw [hc] at hu; exact h u hu
    | some c => rw [hc] at hu; exact h u hu
  · intro u hu
    unfold kill_thread_mark at hu
    cases hc : s.current with
    | none =>
      rw [hc] at hu
      exact kill_in_queue_no_running kpid s.threads h u hu
    | some c =>
      rw [hc] at hu
      by_cases hp : c.pid = kpid
      · simp only [if_pos hp] at hu
        exact h u hu
      · simp only [if_neg hp] at hu
        exact kill_in_queue_no_running kpid s.threads h u hu
  · intro u hu
    unfold sleep_ms at hu
    by_cases hticks : sleep_ticks ms = 0
    · rw [if_pos hticks] at hu
      exact h u hu
    · rw [if_neg hticks] at hu
      cases hc : s.current with
      | none => rw [hc] at hu; exact h u hu
      | some c => rw [hc] at hu; exact h u hu

/-- Scheduler for the C5 witness: a Running current thread and a Ready
queued thread. -/
def wit5_sched : Scheduler :=
  { threads := [{ pid := 31, name := "q", state := ThreadState.Ready,
                  parent_pid := none, stack_bottom := 4096,
                  stack_size := 16384, saved_frame := 601 }],
    current := some { pid := 32, name := "r", state := ThreadState.Running,
                      parent_pid := none, stack_bottom := 8192,
                      stack_size := 16384, saved_frame := 602 },
    idle_frame := 0, deferred_dealloc := none }

theorem claim5_witness :
    running_count wit5_sched ≤ 1 ∧
    running_count (schedule wit5_sched 99 0).2.1 ≤ 1 ∧
    queue_no_running (spawn_thread 33 "n" none 12288 wit5_sched (fun _ => none)).1 := by
  have hq : queue_no_running wit5_sched := by
    intro t ht
    simp only [wit5_sched, List.mem_singleton] at ht
    subst ht
    simp
  have h := claim5_single_runner wit5_sched 99 0 40 33 31 "n" none 12288 (fun _ => none)
  exact ⟨h.1 hq, (h.2.1 hq).2, (h.2.2.1 hq).1⟩

/-! Claim C6. -/

/-- Iterations of the executor poll loop over other task ids do not affect
a task id that does not occur in the remaining ready queue: its membership
in the task map and waker cache and its process-table record are left as
they are. -/
theorem poll_loop_frame (oracle : Nat → Bool) (id : Nat) (q : List Nat) :
    ∀ (tasks cache : List Nat) (tbl : ProcessTable), id ∉ q →
      (id ∈ (poll_loop oracle q tasks cache tbl).1 ↔ id ∈ tasks) ∧
      (id ∈ (poll_loop oracle q tasks cache tbl).2.1 ↔ id ∈ cache) ∧
      (poll_loop oracle q tasks cache tbl).2.2 id = tbl id := by
  induction q with
  | nil => intro tasks cache tbl _; simp [poll_loop]
  | cons a rest ih =>
    intro tasks cache tbl hq
    have hane : id ≠ a := fun h => hq (h ▸ List.mem_cons_self a rest)
    have hrest : id ∉ rest := fun h => hq (List.mem_cons_of_mem a h)
    simp only [poll_loop]
    by_cases hmem : a ∈ tasks
    · simp only [if_pos hmem]
      by_cases ho : oracle a = true
      · rw [if_pos ho]
        rcases ih _ _ _ hrest with ⟨h1, h2, h3⟩
        refine ⟨h1.trans (List.mem_erase_of_ne hane), ?_, ?_⟩
        · refine h2.trans ((List.mem_erase_of_ne hane).trans ?_)
          by_cases hac : a ∈ cache
          · simp [hac]
          · simp [hac, hane]
        · rw [h3]
          simp [terminate, set_state, hane]
      · rw [if_neg ho]
        rcases ih _ _ _ hrest with ⟨h1, h2, h3⟩
        refine ⟨h1, ?_, ?_⟩
        · refine h2.trans ?_
          by_cases hac : a ∈ cache
          · simp [hac]
          · simp [hac, hane]
        · rw [h3]
          simp [set_state, hane]
    · simp only [if_neg hmem]
      exact ih _ _ _ hrest

/-- Effect of the executor poll loop on one task id occurring in the ready
queue: when its poll returns Ready it ends up removed from the task map and
waker cache with its table record Terminated(0); when its poll returns
Pending it stays in the task map with its table record Blocked. -/
theorem poll_loop_spec (oracle : Nat → Bool) (id : Nat) (p : Process)
    (q : List Nat) :
    ∀ (tasks cache : List Nat) (tbl : ProcessTable), q.Nodup → tasks.Nodup →
      cache.Nodup → id ∈ q → id ∈ tasks → tbl id = some p →
      p.state ≠ ProcessState.Terminated →
      (oracle id = true →
        id ∉ (poll_loop oracle q tasks cache tbl).1 ∧
        id ∉ (poll_loop oracle q tasks cache tbl).2.1 ∧
        (poll_loop oracle q tasks cache tbl).2.2 id =
          some { p with state := ProcessState.Terminated, exit_code := some 0 }) ∧
      (oracle id = false →
        id ∈ (poll_loop oracle q tasks cache tbl).1 ∧
        (poll_loop oracle q tasks cache tbl).2.2 id =
          some { p with state := ProcessState.Blocked }) := by
  induction q with
  | nil => intro tasks cache tbl _ _ _ hid; simp at hid
  | cons a rest ih =>
    intro tasks cache tbl hq ht hc hid hidt hp hpt
    have hqrest : rest.Nodup := (List.nodup_cons.mp hq).2
    by_cases hia : id = a
    · subst hia
      have hidrest : id ∉ rest := (List.nodup_cons.mp hq).1
      simp only [poll_loop, if_pos hidt]
      have hcache1 : (if id ∈ cache then cache else cache ++ [id]).Nodup := by
        by_cases hac : id ∈ cache
        · simpa [hac] using hc
        · simp only [if_neg hac]
          refine List.Nodup.append hc (by simp) ?_
          intro x hx
          simp only [List.mem_singleton]
          intro hxe
          exact hac (hxe ▸ hx)
      have hidcache1 : id ∈ (if id ∈ cache then cache else cache ++ [id]) := by
        by_cases hac : id ∈ cache <;> simp [hac]
      constructor
      · intro ho
        rw [if_pos ho]
        rcases poll_loop_frame oracle id rest _ _ _ hidrest with ⟨h1, h2, h3⟩
        refine ⟨?_, ?_, ?_⟩
        · intro hin
          have := (ht.mem_erase_iff).mp (h1.mp hin)
          exact this.1 rfl
        · intro hin
          have := (hcache1.mem_erase_iff).mp (h2.mp hin)
          exact this.1 rfl
        · rw [h3]
          simp [terminate, set_state, hp, hpt]
      · intro ho
        rw [if_neg (by simp [ho])]
        rcases poll_loop_frame oracle id rest _ _ _ hidrest with ⟨h1, h2, h3⟩
        refine ⟨h1.mpr hidt, ?_⟩
        rw [h3]
        simp [set_state, hp, hpt]
    · have hidrest : id ∈ rest := by
        rcases List.mem_cons.mp hid with h | h
        · exact absurd h hia
        · exact h
      simp only [poll_loop]
      by_cases hmem : a ∈ tasks
      · simp only [if_pos hmem]
        have haid : ¬ (id = a) := hia
        by_cases ho : oracle a = true
        · rw [if_pos ho]
          refine ih _ _ _ hqrest (ht.erase a) ?_ hidrest
            ((List.mem_erase_of_ne haid).mpr hidt) ?_ hpt
          · have hcache1 : (if a ∈ cache then cache else cache ++ [a]).Nodup := by
              by_cases hac : a ∈ cache
              · simpa [hac] using hc
              · simp only [if_neg hac]
                refine List.Nodup.append hc (by simp) ?_
                intro x hx
                simp only [List.mem_singleton]
                intro hxe
                exact hac (hxe ▸ hx)
            exact hcache1.erase a
          · simp [terminate, set_state, haid, hp]
        · rw [if_neg ho]
          refine ih _ _ _ hqrest ht ?_ hidrest hidt ?_ hpt
          · by_cases hac : a ∈ cache
            · simpa [hac] using hc
            · simp only [if_neg hac]
              refine List.Nodup.append hc (by simp) ?_
              intro x hx
              simp only [List.mem_singleton]
              intro hxe
              exact hac (hxe ▸ hx)
          · simp [set_state, haid, hp]
      · simp only [if_neg hmem]
        exact ih _ _ _ hqrest ht hc hidrest hidt hp hpt

/-- C6: for every task polled by the executor (that is, every id in the
ready queue that is still registered in the task map, with a live
process-table record): if its poll returns Ready it is removed from the
task map and waker cache and its process-table entry becomes Terminated
with exit code 0; if its poll returns Pending it stays registered and its
process-table entry becomes Blocked. -/
theorem claim6_poll_ready_tasks (oracle : Nat → Bool) (e : Executor)
    (tbl : ProcessTable) (id : Nat) (p : Process)
    (hq : e.ready_queue.Nodup) (ht : e.tasks.Nodup) (hc : e.waker_cache.Nodup)
    (hid : id ∈ e.ready_queue) (hidt : id ∈ e.tasks)
    (hp : tbl id = some p) (hpt : p.state ≠ ProcessState.Terminated) :
    (oracle id = true →
      id ∉ (poll_ready_tasks oracle e tbl).1.tasks ∧
      id ∉ (poll_ready_tasks oracle e tbl).1.waker_cache ∧
      (poll_ready_tasks oracle e tbl).2 id =
        some { p with state := ProcessState.Terminated, exit_code := some 0 }) ∧
    (oracle id = false →
      id ∈ (poll_ready_tasks oracle e tbl).1.tasks ∧
      (poll_ready_tasks oracle e tbl).2 id =
        some { p with state := ProcessState.Blocked }) :=
  poll_loop_spec oracle id p e.ready_queue e.tasks e.waker_cache tbl
    hq ht hc hid hidt hp hpt

/-- Executor and table for the C6 witness: tasks 41 (whose poll completes)
and 42 (whose poll returns Pending), both ready. -/
def wit6_exec : Executor :=
  { tasks := [41, 42], ready_queue := [41, 42], waker_cache := [41] }

/-- Process-table records backing the C6 witness executor. -/
def wit6_tbl : ProcessTable :=
  fun q =>
    if q = 41 then
      some { task_id := 41, name := "done", state := ProcessState.Ready,
             parent_pid := none, exit_code := none, is_thread := false }
    else if q = 42 then
      some { task_id := 42, name := "wait", state := ProcessState.Ready,
             parent_pid := some 1, exit_code := none, is_thread := false }
    else none

/-- Oracle for the C6 witness: task 41 completes, task 42 stays pending. -/
def wit6_oracle : Nat → Bool := fun id => id = 41

theorem claim6_witness :
    (41 ∉ (poll_ready_tasks wit6_oracle wit6_exec wit6_tbl).1.tasks ∧
      41 ∉ (poll_ready_tasks wit6_oracle wit6_exec wit6_tbl).1.waker_cache ∧
      (poll_ready_tasks wit6_oracle wit6_exec wit6_tbl).2 41 =
        some { task_id := 41, name := "done", state := ProcessState.Terminated,
               parent_pid := none, exit_code := some 0, is_thread := false }) ∧
    (42 ∈ (poll_ready_tasks wit6_oracle wit6_exec wit6_tbl).1.tasks ∧
      (poll_ready_tasks wit6_oracle wit6_exec wit6_tbl).2 42 =
        some { task_id := 42, name := "wait", state := ProcessState.Blocked,
               parent_pid := some 1, exit_code := none, is_thread := false }) := by
  constructor
  · exact (claim6_poll_ready_tasks wit6_oracle wit6_exec wit6_tbl 41 _
      (by decide) (by decide) (by decide) (by decide) (by decide) rfl
      (by decide)).1 rfl
  · exact (claim6_poll_ready_tasks wit6_oracle wit6_exec wit6_tbl 42 _
      (by decide) (by decide) (by decide) (by decide) (by decide) rfl
      (by decide)).2 rfl

/-! Claim C8. -/

/-- C8: the scancode-stream poll first tries a non-blocking pop: when the
ring is nonempty it returns the front byte at once and the waker slot is
untouched. Only when that pop is empty does it store the waker; it then
pops the ring a second time, and for every ring content at the moment of
that second check (including bytes pushed between the first check and the
waker registration): if a byte is present, poll returns Ready with the
front byte, consuming exactly it; poll returns Pending only when the second
check also finds the ring empty. -/
theorem claim8_scancode_poll (q0 : ScancodeQueue) (slot : Option Nat)
    (waker : Nat) (interleaved : List Nat) :
    (q0.count ≠ 0 →
      scancode_poll q0 slot waker interleaved =
        (PollRes.ready (q0.buf q0.read),
         { q0 with read := (q0.read + 1) % 128, count := q0.count - 1 },
         slot)) ∧
    (q0.count = 0 →
      (scancode_poll q0 slot waker interleaved).2.2 = some waker ∧
      ((interleaved.foldl scq_push q0).count ≠ 0 →
        scancode_poll q0 slot waker interleaved =
          (PollRes.ready ((interleaved.foldl scq_push q0).buf
              (interleaved.foldl scq_push q0).read),
           { interleaved.foldl scq_push q0 with
               read := ((interleaved.foldl scq_push q0).read + 1) % 128,
               count := (interleaved.foldl scq_push q0).count - 1 },
           some waker)) ∧
      ((interleaved.foldl scq_push q0).count = 0 →
        scancode_poll q0 slot waker interleaved =
          (PollRes.pending, interleaved.foldl scq_push q0, some waker))) := by
  constructor
  · intro h0
    simp only [scancode_poll, scq_pop, if_neg h0]
  · intro h0
    have hpop : scq_pop q0 = (none, q0) := by simp [scq_pop, h0]
    simp only [scancode_poll, hpop]
    refine ⟨?_, fun h2 => ?_, fun h2 => ?_⟩
    · cases hp2 : scq_pop (interleaved.foldl scq_push q0) with
      | mk o q3 => cases o <;> simp [hp2]
    · simp only [scq_pop, if_neg h2]
    · simp only [scq_pop, if_pos h2]

/-- Empty scancode ring for the C8 witness. -/
def wit8_ring : ScancodeQueue :=
  { buf := fun _ => 0, read := 0, write := 0, count := 0 }

theorem claim8_witness :
    scancode_poll wit8_ring none 7 [42] =
      (PollRes.ready (([42].foldl scq_push wit8_ring).buf
          ([42].foldl scq_push wit8_ring).read),
       { [42].foldl scq_push wit8_ring with
           read := (([42].foldl scq_push wit8_ring).read + 1) % 128,
           count := ([42].foldl scq_push wit8_ring).count - 1 },
       some 7) ∧
    ([42].foldl scq_push wit8_ring).buf ([42].foldl scq_push wit8_ring).read = 42 :=
  ⟨((claim8_scancode_poll wit8_ring none 7 [42]).2 rfl).2.1 (by decide), rfl⟩

end KernelModel
